import Mathlib

/-
Verification development for the team-fraicheur-idfm repository.

Shallow embedding conventions:
* Python floats are modelled as rationals (the computations under study are
  exact arithmetic on finite decimal inputs).
* A float NaN (as produced by the 0/0 division in an unguarded min-max
  normalization) is modelled as the value none of Option; a defined float
  value q is modelled as some q.
* pandas DataFrames are modelled as lists of row structures; a column is the
  map of a field over the list.
* Exceptions raised in a constructor are modelled with Except: ok for a
  construction that returns, error for a raised ValueError.
-/

namespace IDFM

/-- pandas Series.min over a nonempty column (the empty case never feeds the
formulas we verify; it is given the junk value 0). -/
def seriesMin : List ℚ → ℚ
  | [] => 0
  | v :: vs => vs.foldl min v

/-- pandas Series.max over a nonempty column (junk value 0 on the empty
column, as for seriesMin). -/
def seriesMax : List ℚ → ℚ
  | [] => 0
  | v :: vs => vs.foldl max v

/-- numpy.isclose with its default tolerances: abs (a - b) <= atol + rtol * abs b
with atol = 1e-8 and rtol = 1e-5.  Used by PriorityScorer.__init__
(src/src/modules/scoring.py line 29). -/
def npIsClose (a b : ℚ) : Prop := |a - b| ≤ 1e-8 + 1e-5 * |b|

instance (a b : ℚ) : Decidable (npIsClose a b) := by
  unfold npIsClose
  infer_instance

/-- Sum of the values of a weights dictionary (sum(self.weights.values())). -/
def weightsSum (w : List (String × ℚ)) : ℚ := (w.map Prod.snd).sum

namespace PriorityScorer

/-- The default weights dictionary of PriorityScorer.__init__
(src/src/modules/scoring.py lines 20-25). -/
def defaultWeights : List (String × ℚ) :=
  [("temperature", 0.35), ("passenger_volume", 0.30),
   ("lack_of_shelter", 0.20), ("lack_of_bench", 0.15)]

/-- PriorityScorer.__init__ (src/src/modules/scoring.py lines 12-30): the
idiom weights or defaults on line 20 replaces a falsy weights argument (an
empty dict, or None) by the default dict, then raises ValueError unless
numpy.isclose finds the sum of the stored weights close to 1.0.  The raise
is modelled as Except.error; the message drops the interpolated total. -/
def init (weights : List (String × ℚ)) : Except String (List (String × ℚ)) :=
  let w := if weights = [] then defaultWeights else weights
  if npIsClose (weightsSum w) 1 then Except.ok w
  else Except.error "Weights must sum to 1.0"

end PriorityScorer

namespace LineScorer

/-- The default weights dictionary of LineScorer.__init__
(src/src/scoring.py lines 9-14). -/
def defaultWeights : List (String × ℚ) :=
  [("temperature", 0.30), ("stops", 0.20),
   ("air_conditioning", 0.25), ("validations", 0.25)]

/-- LineScorer.__init__ (src/src/scoring.py lines 8-14): the idiom
weights or defaults on line 9 replaces a falsy weights argument (an empty
dict, or None) by the default dict; no validation whatsoever is performed,
so construction always succeeds with the stored weights. -/
def init (weights : List (String × ℚ)) : Except String (List (String × ℚ)) :=
  Except.ok (if weights = [] then defaultWeights else weights)

/-- LineScorer.get_ac_score (src/src/scoring.py lines 53-59).  The argument
none models a missing value (pd.isna); some s models the string s.  Note the
final else branch: every string other than "false", "unknown" and "partial"
falls through to 0.0. -/
def get_ac_score : Option String → ℚ
  | none => 1
  | some s =>
    if s = "false" ∨ s = "unknown" then 1
    else if s = "partial" then 1/2
    else 0

end LineScorer

namespace PriorityScorer

/-- Elementwise semantics of the pd.cut call in
PriorityScorer.get_priority_categories (src/src/modules/scoring.py lines
161-174): bins [0, 25, 50, 75, 100], right-closed, include_lowest=True, so
the intervals are [0,25], (25,50], (50,75], (75,100]; a value outside every
bin gets the null category, modelled none. -/
def priorityCategory (s : ℚ) : Option String :=
  if s < 0 then none
  else if s ≤ 25 then some "Low"
  else if s ≤ 50 then some "Medium"
  else if s ≤ 75 then some "High"
  else if s ≤ 100 then some "Critical"
  else none

/-- PriorityScorer.get_priority_categories applied to a whole Series. -/
def get_priority_categories (scores : List ℚ) : List (Option String) :=
  scores.map priorityCategory

end PriorityScorer

/-- A row of the stops GeoDataFrame as consumed by PriorityScorer.score_stops
(columns temperature, daily_passengers, has_shelter, has_bench). -/
structure StopRow where
  temperature : ℚ
  daily_passengers : ℚ
  has_shelter : Bool
  has_bench : Bool
deriving DecidableEq

/-- A row of the aggregated line statistics consumed by
PriorityScorer.score_lines.  The two amenity columns are counts of stops,
hence naturals. -/
structure LineStatsRow where
  avg_temp : ℚ
  total_passengers : ℚ
  stops_without_shelter : ℕ
  stops_without_bench : ℕ
deriving DecidableEq

/-- A row of the line DataFrame consumed by
LineScorer.calculate_priority_scores.  The stop_id column holds the count of
distinct stops in hot zones computed in main.py; air_conditioning is a
string column where none models a missing value. -/
structure LineRow where
  temperature : ℚ
  stop_id : ℚ
  nb_validations : ℚ
  air_conditioning : Option String
deriving DecidableEq

namespace PriorityScorer

/-- The guarded min-max normalization used for each continuous factor in
PriorityScorer.score_stops and score_lines (src/src/modules/scoring.py
lines 44-58 and 89-103): if max > min then (v - min) / (max - min) else
the constant 0.5. -/
def minmaxGuarded (vs : List ℚ) (v : ℚ) : ℚ :=
  if seriesMax vs > seriesMin vs then
    (v - seriesMin vs) / (seriesMax vs - seriesMin vs)
  else 1/2

/-- The temp_score column computed by PriorityScorer.score_stops
(src/src/modules/scoring.py lines 44-50). -/
def temp_scores (stops : List StopRow) : List ℚ :=
  stops.map (fun r => minmaxGuarded (stops.map (·.temperature)) r.temperature)

/-- The passenger_score column computed by PriorityScorer.score_stops
(src/src/modules/scoring.py lines 52-58). -/
def passenger_scores (stops : List StopRow) : List ℚ :=
  stops.map (fun r =>
    minmaxGuarded (stops.map (·.daily_passengers)) r.daily_passengers)

/-- The shelter_score column of score_stops (line 61): (~has_shelter) as
a float. -/
def shelter_scores (stops : List StopRow) : List ℚ :=
  stops.map (fun r => if r.has_shelter then 0 else 1)

/-- The bench_score column of score_stops (line 62). -/
def bench_scores (stops : List StopRow) : List ℚ :=
  stops.map (fun r => if r.has_bench then 0 else 1)

/-- The divide-by-max normalization used for the amenity-count factors in
PriorityScorer.score_lines (src/src/modules/scoring.py lines 105-116):
if max > 0 then v / max else the constant 0.0. -/
def divByMax (vs : List ℚ) (v : ℚ) : ℚ :=
  if seriesMax vs > 0 then v / seriesMax vs else 0

/-- The shelter_score column computed by PriorityScorer.score_lines
(lines 106-110). -/
def line_shelter_scores (lines : List LineStatsRow) : List ℚ :=
  lines.map (fun r =>
    divByMax (lines.map (fun x => (x.stops_without_shelter : ℚ)))
      (r.stops_without_shelter : ℚ))

/-- The bench_score column computed by PriorityScorer.score_lines
(lines 112-116). -/
def line_bench_scores (lines : List LineStatsRow) : List ℚ :=
  lines.map (fun r =>
    divByMax (lines.map (fun x => (x.stops_without_bench : ℚ)))
      (r.stops_without_bench : ℚ))

/-- The avg_temp normalization of score_lines (lines 89-95). -/
def line_temp_scores (lines : List LineStatsRow) : List ℚ :=
  lines.map (fun r => minmaxGuarded (lines.map (·.avg_temp)) r.avg_temp)

/-- The total_passengers normalization of score_lines (lines 97-103). -/
def line_passenger_scores (lines : List LineStatsRow) : List ℚ :=
  lines.map (fun r =>
    minmaxGuarded (lines.map (·.total_passengers)) r.total_passengers)

end PriorityScorer

namespace LineScorer

/-- The unguarded min-max normalization used for every continuous factor in
LineScorer.calculate_priority_scores (src/src/scoring.py lines 19-34):
(v - min) / (max - min) with no guard.  When max = min every row divides
0.0 by 0.0, which in float arithmetic is NaN, modelled none; otherwise the
float quotient is defined, modelled some. -/
def minmaxUnguarded (vs : List ℚ) (v : ℚ) : Option ℚ :=
  if seriesMax vs = seriesMin vs then none
  else some ((v - seriesMin vs) / (seriesMax vs - seriesMin vs))

/-- The temp_score column of calculate_priority_scores (lines 20-22). -/
def tempScores (df : List LineRow) : List (Option ℚ) :=
  df.map (fun r => minmaxUnguarded (df.map (·.temperature)) r.temperature)

/-- The stops_score column of calculate_priority_scores (lines 25-27),
normalizing the stop_id count column. -/
def stopsScores (df : List LineRow) : List (Option ℚ) :=
  df.map (fun r => minmaxUnguarded (df.map (·.stop_id)) r.stop_id)

/-- The validations_score column of calculate_priority_scores
(lines 30-34). -/
def validationsScores (df : List LineRow) : List (Option ℚ) :=
  df.map (fun r =>
    minmaxUnguarded (df.map (·.nb_validations)) r.nb_validations)

end LineScorer

/-- pandas DataFrame.sort_values(by=key, ascending=False) with the default
kind.  pandas nargsort computes an ascending argsort and then reverses the
whole index order (pandas/core/sorting.py), and the numpy argsort it calls
is a stable insertion sort on the small arrays evaluated in this file;
the order properties proved below (a permutation sorted descending) hold
for every correct ascending sort, stable or not. -/
def sort_values_desc {α : Type} (key : α → ℚ) (l : List α) : List α :=
  (List.insertionSort (fun a b => key a ≤ key b) l).reverse

/-- The rank column assignment range(1, len + 1) zipped onto the sorted
rows (src/src/scoring.py line 49, src/src/modules/scoring.py lines 143
and 158). -/
def withRank {α : Type} (l : List α) : List (α × ℕ) :=
  l.zip (List.range' 1 l.length)

/-- The sort-and-rank step shared by LineScorer.calculate_priority_scores
(src/src/scoring.py lines 47-49) and PriorityScorer.rank_stops and
rank_lines: sort descending by the priority_score key, then assign ranks
1..N by position. -/
def sortAndRank {α : Type} (key : α → ℚ) (l : List α) : List (α × ℕ) :=
  withRank (sort_values_desc key l)

/-- PriorityScorer.rank_stops (src/src/modules/scoring.py lines 131-144):
sort descending, assign ranks 1..N, return the first top_n rows. -/
def rank_stops {α : Type} (key : α → ℚ) (l : List α) (top_n : ℕ) :
    List (α × ℕ) :=
  (sortAndRank key l).take top_n

/-- Modelled from the spec: the ranking of section 4.5, which demands that
ties be resolved by a stable secondary key, namely original input order.  A
stable descending insertion sort keeps tied rows in input order; ranks are
then 1..N by position.  Stated only to be compared with sortAndRank. -/
def sortAndRankSpec {α : Type} (key : α → ℚ) (l : List α) : List (α × ℕ) :=
  withRank (List.insertionSort (fun a b => key b ≤ key a) l)

/-- A row of the DataFrame handed to the climate tile builders: one
(lon, lat, temperature) sample. -/
structure SampleRow where
  lon : ℚ
  lat : ℚ
  temperature : ℚ
deriving DecidableEq

/-- A shapely box(minx, miny, maxx, maxy): an axis-aligned rectangle. -/
structure Tile where
  minx : ℚ
  miny : ℚ
  maxx : ℚ
  maxy : ℚ
deriving DecidableEq

/-- Horizontal center of a tile. -/
def tileCenterX (t : Tile) : ℚ := (t.minx + t.maxx) / 2

/-- Vertical center of a tile. -/
def tileCenterY (t : Tile) : ℚ := (t.miny + t.maxy) / 2

/-- Horizontal side length of a tile. -/
def tileWidth (t : Tile) : ℚ := t.maxx - t.minx

/-- Vertical side length of a tile. -/
def tileHeight (t : Tile) : ℚ := t.maxy - t.miny

/-- The fixed tile edge length TILE_SIZE = 0.0225 shared by both climate
loader variants. -/
def TILE_SIZE : ℚ := 0.0225

namespace ClimateDataLoader

/-- ClimateDataLoader.convert_to_geodataframe (src/src/climate_loader.py
lines 93-99): each sample row is paired with the square
box(lon - half_tile, lat - half_tile, lon + half_tile, lat + half_tile)
where half_tile = TILE_SIZE / 2.  No validation of any kind is performed. -/
def convert_to_geodataframe (df : List SampleRow) : List (SampleRow × Tile) :=
  df.map (fun r =>
    (r, ⟨r.lon - TILE_SIZE / 2, r.lat - TILE_SIZE / 2,
         r.lon + TILE_SIZE / 2, r.lat + TILE_SIZE / 2⟩))

end ClimateDataLoader

namespace Modules

namespace ClimateDataLoader

/-- ClimateDataLoader._convert_to_geodataframe of the modules variant
(src/src/modules/climate_loader.py lines 112-118): each sample row is
paired with box(lon, lat, lon + TILE_SIZE, lat + TILE_SIZE), anchoring the
lower-left corner, not the center, at the sample.  No validation is
performed. -/
def convertToGeodataframe (df : List SampleRow) : List (SampleRow × Tile) :=
  df.map (fun r => (r, ⟨r.lon, r.lat, r.lon + TILE_SIZE, r.lat + TILE_SIZE⟩))

end ClimateDataLoader

end Modules

/-- A bus stop point as consumed by the spatial join: an id and a point
location. -/
structure StopRec where
  arrid : ℕ
  lon : ℚ
  lat : ℚ
deriving DecidableEq

/-- The shapely within predicate for a point and a rectangle: the point
must lie strictly inside the rectangle (a point on the boundary is not
within the polygon). -/
def pointWithinTile (s : StopRec) (t : Tile) : Bool :=
  decide (t.minx < s.lon) && decide (s.lon < t.maxx) &&
  decide (t.miny < s.lat) && decide (s.lat < t.maxy)

namespace SpatialAnalyzer

/-- SpatialAnalyzer.join_stops_with_climate (src/src/spatial_analysis.py
lines 7-17 and src/src/modules/spatial_analysis.py lines 17-39): the
geopandas inner sjoin with predicate within, keeping one output row per
(stop, containing tile) pair, stop rows in input order; the CRS alignment
step is the identity here since both tables are modelled in one coordinate
system. -/
def join_stops_with_climate (stops : List StopRec)
    (climate : List (SampleRow × Tile)) : List (StopRec × SampleRow × Tile) :=
  stops.flatMap (fun s =>
    (climate.filter (fun c => pointWithinTile s c.2)).map (fun c => (s, c)))

end SpatialAnalyzer

/-- A row of the joined stops-with-climate DataFrame as consumed by
calculate_stop_heat_exposure: the stop id, the joined temperature, and a
tag standing for the remaining columns carried over from the climate tile
(so two join rows of one stop against two tiles stay distinguishable). -/
structure JoinedRow where
  stop_id : ℕ
  temperature : ℚ
  cell : ℕ
deriving DecidableEq

/-- drop_duplicates(subset=[stop_id], keep=first): keep, in order, the
first row of each stop id; seen accumulates the ids already kept. -/
def dedupFirst (seen : List ℕ) : List JoinedRow → List JoinedRow
  | [] => []
  | r :: rs =>
    if r.stop_id ∈ seen then dedupFirst seen rs
    else r :: dedupFirst (r.stop_id :: seen) rs

/-- The largest temperature among the rows of one stop id. -/
def maxTempFor (rows : List JoinedRow) (s : ℕ) : ℚ :=
  seriesMax ((rows.filter (fun r => r.stop_id == s)).map (·.temperature))

namespace Modules

namespace SpatialAnalyzer

/-- SpatialAnalyzer.calculate_stop_heat_exposure
(src/src/modules/spatial_analysis.py lines 41-57): if any stop id is
duplicated, sort the rows descending by temperature and keep the first row
of each stop id; otherwise return the rows unchanged. -/
def calculate_stop_heat_exposure (rows : List JoinedRow) : List JoinedRow :=
  if (rows.map (·.stop_id)).Nodup then rows
  else dedupFirst [] (sort_values_desc (·.temperature) rows)

end SpatialAnalyzer

/-- A stop row as consumed by SpatialAnalyzer.aggregate_by_line: the lines
field is the list produced by splitting the comma-separated lines column. -/
structure StopLineRow where
  stop_id : ℕ
  temperature : ℚ
  lines : List String
deriving DecidableEq

namespace SpatialAnalyzer

/-- The explode step of aggregate_by_line
(src/src/modules/spatial_analysis.py lines 69-75): one output row per
(stop row, line) pair. -/
def explodeLines (stops : List StopLineRow) : List (ℕ × ℚ × String) :=
  stops.flatMap (fun r => r.lines.map (fun l => (r.stop_id, r.temperature, l)))

/-- The num_stops aggregate of aggregate_by_line (lines 78-89): the stop_id
column is aggregated with count, a raw row count of the exploded rows of
the group. -/
def num_stops (stops : List StopLineRow) (line : String) : ℕ :=
  ((explodeLines stops).filter (fun r => r.2.2 == line)).length

/-- The number of distinct stop ids among the exploded rows of a group;
this is the quantity the spec calls the distinct-asset count of the group
(not computed by aggregate_by_line, which counts rows). -/
def distinct_stops (stops : List StopLineRow) (line : String) : ℕ :=
  (((explodeLines stops).filter (fun r => r.2.2 == line)).map (·.1)).dedup.length

end SpatialAnalyzer

end Modules

/-- A row of the hot_stops_lines DataFrame aggregated in main.py lines
48-54: the route a stop serves, the stop id, and its joined temperature. -/
structure RouteStopRow where
  route_id : String
  stop_id : ℕ
  temperature : ℚ
deriving DecidableEq

/-- The stop_id aggregate of main.py lines 49-53: groupby(route_id) with
stop_id aggregated by nunique, the number of distinct stop ids of the
route. -/
def mainLineStopCount (rows : List RouteStopRow) (route : String) : ℕ :=
  (((rows.filter (fun r => r.route_id == route)).map (·.stop_id)).dedup).length

/- The comparison used by sort_values_desc is total and transitive. -/

instance {α : Type} (key : α → ℚ) : IsTotal α (fun a b => key a ≤ key b) :=
  ⟨fun a b => le_total (key a) (key b)⟩

instance {α : Type} (key : α → ℚ) : IsTrans α (fun a b => key a ≤ key b) :=
  ⟨fun _ _ _ h₁ h₂ => le_trans h₁ h₂⟩

/- Helper lemmas about the series extrema. -/

theorem foldl_min_le (xs : List ℚ) (a : ℚ) : xs.foldl min a ≤ a := by
  induction xs generalizing a with
  | nil => exact le_refl a
  | cons x xs ih =>
    calc (x :: xs).foldl min a = xs.foldl min (min a x) := rfl
    _ ≤ min a x := ih (min a x)
    _ ≤ a := min_le_left a x

theorem foldl_min_le_mem {xs : List ℚ} {b : ℚ} (h : b ∈ xs) (a : ℚ) :
    xs.foldl min a ≤ b := by
  induction xs generalizing a with
  | nil => cases h
  | cons x xs ih =>
    rcases List.mem_cons.mp h with hb | hb
    · subst hb
      calc xs.foldl min (min a b) ≤ min a b := foldl_min_le xs (min a b)
      _ ≤ b := min_le_right a b
    · exact ih hb (min a x)

theorem seriesMin_le_of_mem {l : List ℚ} {v : ℚ} (h : v ∈ l) :
    seriesMin l ≤ v := by
  cases l with
  | nil => cases h
  | cons x xs =>
    rcases List.mem_cons.mp h with hv | hv
    · subst hv
      exact foldl_min_le xs v
    · exact foldl_min_le_mem hv x

theorem le_foldl_max (xs : List ℚ) (a : ℚ) : a ≤ xs.foldl max a := by
  induction xs generalizing a with
  | nil => exact le_refl a
  | cons x xs ih =>
    calc a ≤ max a x := le_max_left a x
    _ ≤ xs.foldl max (max a x) := ih (max a x)
    _ = (x :: xs).foldl max a := rfl

theorem mem_le_foldl_max {xs : List ℚ} {b : ℚ} (h : b ∈ xs) (a : ℚ) :
    b ≤ xs.foldl max a := by
  induction xs generalizing a with
  | nil => cases h
  | cons x xs ih =>
    rcases List.mem_cons.mp h with hb | hb
    · subst hb
      calc b ≤ max a b := le_max_right a b
      _ ≤ xs.foldl max (max a b) := le_foldl_max xs (max a b)
    · exact ih hb (max a x)

theorem le_seriesMax_of_mem {l : List ℚ} {v : ℚ} (h : v ∈ l) :
    v ≤ seriesMax l := by
  cases l with
  | nil => cases h
  | cons x xs =>
    rcases List.mem_cons.mp h with hv | hv
    · subst hv
      exact le_foldl_max xs v
    · exact mem_le_foldl_max hv x

theorem foldl_max_mem (xs : List ℚ) (a : ℚ) : xs.foldl max a ∈ a :: xs := by
  induction xs generalizing a with
  | nil => exact List.mem_singleton.mpr rfl
  | cons x xs ih =>
    have h := ih (max a x)
    have hfold : (x :: xs).foldl max a = xs.foldl max (max a x) := rfl
    rcases List.mem_cons.mp h with h1 | h1
    · rcases max_choice a x with h2 | h2
      · rw [hfold, h1, h2]
        exact List.mem_cons_self a (x :: xs)
      · rw [hfold, h1, h2]
        exact List.mem_cons_of_mem a (List.mem_cons_self x xs)
    · rw [hfold]
      exact List.mem_cons_of_mem a (List.mem_cons_of_mem x h1)

theorem seriesMax_mem {l : List ℚ} (h : l ≠ []) : seriesMax l ∈ l := by
  cases l with
  | nil => exact absurd rfl h
  | cons x xs => exact foldl_max_mem xs x

theorem seriesMax_eq_of_perm {l₁ l₂ : List ℚ} (h : List.Perm l₁ l₂) :
    seriesMax l₁ = seriesMax l₂ := by
  cases l₁ with
  | nil =>
    have := h.nil_eq
    rw [← this]
  | cons x xs =>
    have h₂ : l₂ ≠ [] := by
      intro hn
      subst hn
      exact absurd h.symm.nil_eq (by simp)
    have m₁ : seriesMax (x :: xs) ∈ l₂ := h.mem_iff.mp (seriesMax_mem (by simp))
    have m₂ : seriesMax l₂ ∈ (x :: xs) := h.mem_iff.mpr (seriesMax_mem h₂)
    exact le_antisymm (le_seriesMax_of_mem m₁) (le_seriesMax_of_mem m₂)

theorem foldl_min_const {t : ℚ} :
    ∀ (xs : List ℚ), (∀ v ∈ xs, v = t) → ∀ a, a = t → xs.foldl min a = t
  | [], _, _, ha => ha
  | y :: ys, h, a, ha => by
    have hy : y = t := h y (List.mem_cons_self y ys)
    have hmin : min a y = t := by rw [ha, hy, min_self]
    exact foldl_min_const ys (fun v hv => h v (List.mem_cons_of_mem y hv))
      (min a y) hmin

theorem seriesMin_const {l : List ℚ} {t : ℚ} (hne : l ≠ [])
    (h : ∀ v ∈ l, v = t) : seriesMin l = t := by
  cases l with
  | nil => exact absurd rfl hne
  | cons x xs =>
    exact foldl_min_const xs
      (fun v hv => h v (List.mem_cons_of_mem x hv)) x
      (h x (List.mem_cons_self x xs))

theorem seriesMax_const {l : List ℚ} {t : ℚ} (hne : l ≠ [])
    (h : ∀ v ∈ l, v = t) : seriesMax l = t := by
  have hm : seriesMax l ∈ l := seriesMax_mem hne
  exact h _ hm

/- Helper lemmas about the descending sort and the rank assignment. -/

theorem sort_values_desc_perm {α : Type} (key : α → ℚ) (l : List α) :
    List.Perm (sort_values_desc key l) l := by
  unfold sort_values_desc
  exact (List.reverse_perm _).trans (List.perm_insertionSort _ l)

theorem sort_values_desc_length {α : Type} (key : α → ℚ) (l : List α) :
    (sort_values_desc key l).length = l.length :=
  (sort_values_desc_perm key l).length_eq

theorem sort_values_desc_sorted {α : Type} (key : α → ℚ) (l : List α) :
    (sort_values_desc key l).Pairwise (fun a b => key b ≤ key a) := by
  unfold sort_values_desc
  rw [List.pairwise_reverse]
  exact List.sorted_insertionSort (fun a b => key a ≤ key b) l

theorem withRank_map_fst {α : Type} (l : List α) :
    (withRank l).map Prod.fst = l := by
  unfold withRank
  exact List.map_fst_zip l _ (by simp)

theorem withRank_map_snd {α : Type} (l : List α) :
    (withRank l).map Prod.snd = List.range' 1 l.length := by
  unfold withRank
  exact List.map_snd_zip l _ (by simp)

/-- Claim C4 (amended): the ranking step of
LineScorer.calculate_priority_scores and of PriorityScorer.rank_stops and
rank_lines sorts descending by priority_score and assigns the contiguous
rank sequence 1..N by sorted position, so the key is non-increasing as rank
increases, equal scores receive two different consecutive ranks, and the
ranked rows are a permutation of the input; rank_stops then returns the
first top_n ranked rows.  The ranking is a function of its input, hence
repeatable, but ties are NOT resolved by original input order: the pandas
descending sort reverses an ascending argsort, so tied rows appear in
reverse input order (see the counterexample). -/
theorem claim_C4_ranking {α : Type} (key : α → ℚ) (l : List α) :
    ((sortAndRank key l).map Prod.snd = List.range' 1 l.length) ∧
    ((sortAndRank key l).map (fun p => key p.1)).Pairwise (fun a b => b ≤ a) ∧
    List.Perm ((sortAndRank key l).map Prod.fst) l ∧
    (∀ top_n, rank_stops key l top_n = (sortAndRank key l).take top_n) := by
  unfold sortAndRank rank_stops
  refine ⟨?_, ?_, ?_, fun _ => rfl⟩
  · rw [withRank_map_snd, sort_values_desc_length]
  · have hmm : (withRank (sort_values_desc key l)).map (fun p => key p.1) =
        ((withRank (sort_values_desc key l)).map Prod.fst).map key := by
      rw [List.map_map]
      rfl
    rw [hmm, withRank_map_fst]
    exact List.pairwise_map.mpr (sort_values_desc_sorted key l)
  · rw [withRank_map_fst]
    exact sort_values_desc_perm key l

/-- Claim C4 (counterexample): on two rows carrying equal priority scores,
the implemented ranking puts the second input row at rank 1 and the first
at rank 2, while a ranking whose ties are resolved by original input order
(sortAndRankSpec, written from the spec) would do the opposite; hence the
tie-break stated by the claim does not hold. -/
theorem claim_C4_counterexample :
    sortAndRank Prod.snd [((0 : ℕ), (5 : ℚ)), (1, 5)] =
      [(((1 : ℕ), (5 : ℚ)), 1), ((0, 5), 2)] ∧
    sortAndRankSpec Prod.snd [((0 : ℕ), (5 : ℚ)), (1, 5)] =
      [(((0 : ℕ), (5 : ℚ)), 1), ((1, 5), 2)] ∧
    sortAndRank Prod.snd [((0 : ℕ), (5 : ℚ)), (1, 5)] ≠
      sortAndRankSpec Prod.snd [((0 : ℕ), (5 : ℚ)), (1, 5)] := by
  refine ⟨by decide, by decide, by decide⟩

/-- Claim C10 (confirmed): priorityCategory, the elementwise semantics of
PriorityScorer.get_priority_categories, assigns each score in [0, 100]
exactly one of the four labels, with bins [0,25], (25,50], (50,75],
(75,100] (lowest bin left-closed at 0), and assigns the null category to
every score below 0 or above 100. -/
theorem claim_C10_priority_categories (s : ℚ) :
    (PriorityScorer.priorityCategory s = some "Low" ↔ 0 ≤ s ∧ s ≤ 25) ∧
    (PriorityScorer.priorityCategory s = some "Medium" ↔ 25 < s ∧ s ≤ 50) ∧
    (PriorityScorer.priorityCategory s = some "High" ↔ 50 < s ∧ s ≤ 75) ∧
    (PriorityScorer.priorityCategory s = some "Critical" ↔ 75 < s ∧ s ≤ 100) ∧
    (PriorityScorer.priorityCategory s = none ↔ (s < 0 ∨ 100 < s)) ∧
    PriorityScorer.get_priority_categories [s] =
      [PriorityScorer.priorityCategory s] := by
  refine ⟨?_, ?_, ?_, ?_, ?_, rfl⟩ <;>
    unfold PriorityScorer.priorityCategory <;>
    split_ifs with h1 h2 h3 h4 h5 <;>
    simp <;>
    first
      | (constructor <;> linarith)
      | (rintro ⟨a, b⟩; linarith)
      | (rintro (a | a) <;> linarith)
      | linarith
      | (intro a; linarith)
      | (left; linarith)
      | (right; linarith)

/-- Claim C1 (amended): only PriorityScorer validates its weights at
construction time, and only the weights actually stored: a nonempty
weights dict fails when its sum is at least 0.03 away from 1.0 (so sums
0.97 and 1.03 fail) and succeeds when its sum is within 1e-6 of 1.0 (the
numpy.isclose tolerance is 1e-8 + 1e-5); an empty (absent) weights dict is
silently replaced by the defaults, which sum to 1.0, so construction then
succeeds with the default weights in both scorers.  LineScorer performs no
validation and constructs successfully with any weights. -/
theorem claim_C1_weight_validation (w : List (String × ℚ)) :
    (w ≠ [] → |weightsSum w - 1| ≤ 1/1000000 →
      PriorityScorer.init w = Except.ok w) ∧
    (w ≠ [] → 3/100 ≤ |weightsSum w - 1| →
      PriorityScorer.init w = Except.error "Weights must sum to 1.0") ∧
    (w ≠ [] → LineScorer.init w = Except.ok w) ∧
    PriorityScorer.init [] = Except.ok PriorityScorer.defaultWeights ∧
    LineScorer.init [] = Except.ok LineScorer.defaultWeights := by
  have hdef : npIsClose (weightsSum PriorityScorer.defaultWeights) 1 := by
    unfold npIsClose
    have h : weightsSum PriorityScorer.defaultWeights = 1 := by
      norm_num [weightsSum, PriorityScorer.defaultWeights]
    rw [h]
    norm_num
  refine ⟨?_, ?_, ?_, ?_, rfl⟩
  · intro hne h
    have hc : npIsClose (weightsSum w) 1 := by
      unfold npIsClose
      have h2 : (1/1000000 : ℚ) ≤ 1e-8 + 1e-5 * |(1 : ℚ)| := by norm_num
      linarith
    simp only [PriorityScorer.init]
    rw [if_neg hne, if_pos hc]
  · intro hne h
    have hc : ¬ npIsClose (weightsSum w) 1 := by
      unfold npIsClose
      push_neg
      have h2 : (1e-8 + 1e-5 * |(1 : ℚ)| : ℚ) < 3/100 := by norm_num
      linarith
    simp only [PriorityScorer.init]
    rw [if_neg hne, if_neg hc]
  · intro hne
    simp only [LineScorer.init]
    rw [if_neg hne]
  · simp [PriorityScorer.init, hdef]

/-- Claim C1 (witness): the default PriorityScorer weights sum to exactly
1.0, so construction with them succeeds; a single weight of 1.03 makes
construction fail; an empty weights dict falls back to the defaults and
succeeds. -/
theorem claim_C1_witness :
    PriorityScorer.init PriorityScorer.defaultWeights =
      Except.ok PriorityScorer.defaultWeights ∧
    PriorityScorer.init [("temperature", (1.03 : ℚ))] =
      Except.error "Weights must sum to 1.0" ∧
    PriorityScorer.init [] = Except.ok PriorityScorer.defaultWeights := by
  refine ⟨?_, ?_, (claim_C1_weight_validation []).2.2.2.1⟩
  · apply (claim_C1_weight_validation PriorityScorer.defaultWeights).1
      (by simp [PriorityScorer.defaultWeights])
    have h : weightsSum PriorityScorer.defaultWeights = 1 := by
      norm_num [weightsSum, PriorityScorer.defaultWeights]
    rw [h]
    norm_num
  · apply (claim_C1_weight_validation [("temperature", (1.03 : ℚ))]).2.1
      (by simp)
    have h : weightsSum [("temperature", (1.03 : ℚ))] = 103/100 := by
      norm_num [weightsSum]
    rw [h, show (103/100 : ℚ) - 1 = 3/100 from by norm_num,
      abs_of_nonneg (by norm_num : (0 : ℚ) ≤ 3/100)]

/-- Claim C1 (counterexample): a LineScorer constructed with weights
summing to 0.97 is built without any error, refuting the claim that every
scorer variant fails with InvalidWeights on weights not summing to 1.0. -/
theorem claim_C1_counterexample :
    weightsSum [("temperature", (0.30 : ℚ)), ("stops", 0.20),
      ("air_conditioning", 0.25), ("validations", 0.22)] = 97/100 ∧
    LineScorer.init [("temperature", (0.30 : ℚ)), ("stops", 0.20),
      ("air_conditioning", 0.25), ("validations", 0.22)] =
      Except.ok [("temperature", 0.30), ("stops", 0.20),
        ("air_conditioning", 0.25), ("validations", 0.22)] := by
  constructor
  · norm_num [weightsSum]
  · rfl

/-- Claim C5 (amended): LineScorer.get_ac_score maps a missing value and
the strings "false" and "unknown" to 1.0 and "partial" to 0.5; every other
string, including unrecognized categories, falls into the else branch and
maps to 0.0 (not to the worst-case 1.0); all outputs lie in [0, 1]. -/
theorem claim_C5_ac_score :
    LineScorer.get_ac_score none = 1 ∧
    LineScorer.get_ac_score (some "false") = 1 ∧
    LineScorer.get_ac_score (some "unknown") = 1 ∧
    LineScorer.get_ac_score (some "partial") = 1/2 ∧
    (∀ s : String, s ≠ "false" → s ≠ "unknown" → s ≠ "partial" →
      LineScorer.get_ac_score (some s) = 0) ∧
    (∀ a : Option String,
      0 ≤ LineScorer.get_ac_score a ∧ LineScorer.get_ac_score a ≤ 1) := by
  refine ⟨rfl, rfl, rfl, rfl, ?_, ?_⟩
  · intro s h1 h2 h3
    show (if s = "false" ∨ s = "unknown" then (1 : ℚ)
      else if s = "partial" then 1/2 else 0) = 0
    rw [if_neg (by tauto), if_neg h3]
  · intro a
    cases a with
    | none =>
      show (0 : ℚ) ≤ 1 ∧ (1 : ℚ) ≤ 1
      exact ⟨by norm_num, le_refl 1⟩
    | some s =>
      show (0 : ℚ) ≤ (if s = "false" ∨ s = "unknown" then (1 : ℚ)
          else if s = "partial" then 1/2 else 0) ∧
        (if s = "false" ∨ s = "unknown" then (1 : ℚ)
          else if s = "partial" then 1/2 else 0) ≤ 1
      split_ifs <;> norm_num

/-- Claim C5 (witness): the unrecognized category string "oui" is mapped
to 0.0 by the else branch. -/
theorem claim_C5_witness : LineScorer.get_ac_score (some "oui") = 0 :=
  claim_C5_ac_score.2.2.2.2.1 "oui" (by decide) (by decide) (by decide)

/-- Claim C5 (counterexample): the category string "yes" is not one of the
known enumeration values, yet it is mapped to 0.0, not to the
highest-priority score 1.0 the claim demands. -/
theorem claim_C5_counterexample :
    LineScorer.get_ac_score (some "yes") = 0 ∧ (0 : ℚ) ≠ 1 := by
  exact ⟨rfl, by norm_num⟩

/- Helper lemmas bounding each normalization. -/

theorem get_ac_score_range (a : Option String) :
    0 ≤ LineScorer.get_ac_score a ∧ LineScorer.get_ac_score a ≤ 1 := by
  cases a with
  | none =>
    show (0 : ℚ) ≤ 1 ∧ (1 : ℚ) ≤ 1
    exact ⟨by norm_num, le_refl 1⟩
  | some s =>
    show (0 : ℚ) ≤ (if s = "false" ∨ s = "unknown" then (1 : ℚ)
        else if s = "partial" then 1/2 else 0) ∧
      (if s = "false" ∨ s = "unknown" then (1 : ℚ)
        else if s = "partial" then 1/2 else 0) ≤ 1
    split_ifs <;> norm_num

theorem minmaxGuarded_range {vs : List ℚ} {v : ℚ} (h : v ∈ vs) :
    0 ≤ PriorityScorer.minmaxGuarded vs v ∧
      PriorityScorer.minmaxGuarded vs v ≤ 1 := by
  unfold PriorityScorer.minmaxGuarded
  split_ifs with hlt
  · have hlo : seriesMin vs ≤ v := seriesMin_le_of_mem h
    have hhi : v ≤ seriesMax vs := le_seriesMax_of_mem h
    have hpos : (0 : ℚ) < seriesMax vs - seriesMin vs := sub_pos.mpr hlt
    constructor
    · exact div_nonneg (sub_nonneg.mpr hlo) (le_of_lt hpos)
    · rw [div_le_one hpos]
      exact sub_le_sub_right hhi _
  · norm_num

theorem minmaxUnguarded_range {vs : List ℚ} {v q : ℚ} (h : v ∈ vs)
    (hq : LineScorer.minmaxUnguarded vs v = some q) : 0 ≤ q ∧ q ≤ 1 := by
  unfold LineScorer.minmaxUnguarded at hq
  split_ifs at hq with he
  have hlo : seriesMin vs ≤ v := seriesMin_le_of_mem h
  have hhi : v ≤ seriesMax vs := le_seriesMax_of_mem h
  have hle : seriesMin vs ≤ seriesMax vs := le_trans hlo hhi
  have hpos : (0 : ℚ) < seriesMax vs - seriesMin vs :=
    sub_pos.mpr (lt_of_le_of_ne hle (Ne.symm he))
  injection hq with hq
  subst hq
  constructor
  · exact div_nonneg (sub_nonneg.mpr hlo) (le_of_lt hpos)
  · rw [div_le_one hpos]
    exact sub_le_sub_right hhi _

theorem divByMax_range {vs : List ℚ} {v : ℚ} (h : v ∈ vs) (h0 : 0 ≤ v) :
    0 ≤ PriorityScorer.divByMax vs v ∧ PriorityScorer.divByMax vs v ≤ 1 := by
  unfold PriorityScorer.divByMax
  split_ifs with hpos
  · constructor
    · exact div_nonneg h0 (le_of_lt hpos)
    · rw [div_le_one hpos]
      exact le_seriesMax_of_mem h
  · norm_num

theorem map_minmaxGuarded_const {α : Type} (f : α → ℚ) (l : List α)
    (t : ℚ) (h : ∀ r ∈ l, f r = t) :
    l.map (fun r => PriorityScorer.minmaxGuarded (l.map f) (f r)) =
      l.map (fun _ => 1/2) := by
  cases l with
  | nil => rfl
  | cons a rest =>
    apply List.map_congr_left
    intro r _
    unfold PriorityScorer.minmaxGuarded
    have hall : ∀ v ∈ (a :: rest).map f, v = t := by
      intro v hv
      obtain ⟨x, hx, hxv⟩ := List.mem_map.mp hv
      rw [← hxv]
      exact h x hx
    rw [seriesMin_const (by simp) hall, seriesMax_const (by simp) hall,
      if_neg (lt_irrefl t)]

theorem map_minmaxUnguarded_const {α : Type} (f : α → ℚ) (l : List α)
    (t : ℚ) (h : ∀ r ∈ l, f r = t) :
    l.map (fun r => LineScorer.minmaxUnguarded (l.map f) (f r)) =
      l.map (fun _ => none) := by
  cases l with
  | nil => rfl
  | cons a rest =>
    apply List.map_congr_left
    intro r _
    unfold LineScorer.minmaxUnguarded
    have hall : ∀ v ∈ (a :: rest).map f, v = t := by
      intro v hv
      obtain ⟨x, hx, hxv⟩ := List.mem_map.mp hv
      rw [← hxv]
      exact h x hx
    rw [seriesMin_const (by simp) hall, seriesMax_const (by simp) hall,
      if_pos rfl]

/-- Claim C2 (amended): all four guarded min-max normalizations of
PriorityScorer (temperature and passengers in score_stops, avg_temp and
total_passengers in score_lines) assign the neutral score 0.5 to every row
when all raw values of the factor are identical (including a single row),
without raising; the three unguarded normalizations of
LineScorer.calculate_priority_scores (temperature, stop count,
validations) instead divide 0.0 by 0.0 on such input and produce NaN
(modelled none), not 0.5. -/
theorem claim_C2_zero_variance (stops : List StopRow) (t p : ℚ)
    (lines : List LineStatsRow) (ta pa : ℚ)
    (df : List LineRow) (u1 u2 u3 : ℚ) :
    ((∀ r ∈ stops, r.temperature = t) →
      PriorityScorer.temp_scores stops = stops.map (fun _ => 1/2)) ∧
    ((∀ r ∈ stops, r.daily_passengers = p) →
      PriorityScorer.passenger_scores stops = stops.map (fun _ => 1/2)) ∧
    ((∀ r ∈ lines, r.avg_temp = ta) →
      PriorityScorer.line_temp_scores lines = lines.map (fun _ => 1/2)) ∧
    ((∀ r ∈ lines, r.total_passengers = pa) →
      PriorityScorer.line_passenger_scores lines =
        lines.map (fun _ => 1/2)) ∧
    ((∀ r ∈ df, r.temperature = u1) →
      LineScorer.tempScores df = df.map (fun _ => none)) ∧
    ((∀ r ∈ df, r.stop_id = u2) →
      LineScorer.stopsScores df = df.map (fun _ => none)) ∧
    ((∀ r ∈ df, r.nb_validations = u3) →
      LineScorer.validationsScores df = df.map (fun _ => none)) := by
  refine ⟨?_, ?_, ?_, ?_, ?_, ?_, ?_⟩
  · intro h
    unfold PriorityScorer.temp_scores
    exact map_minmaxGuarded_const StopRow.temperature stops t h
  · intro h
    unfold PriorityScorer.passenger_scores
    exact map_minmaxGuarded_const StopRow.daily_passengers stops p h
  · intro h
    unfold PriorityScorer.line_temp_scores
    exact map_minmaxGuarded_const LineStatsRow.avg_temp lines ta h
  · intro h
    unfold PriorityScorer.line_passenger_scores
    exact map_minmaxGuarded_const LineStatsRow.total_passengers lines pa h
  · intro h
    unfold LineScorer.tempScores
    exact map_minmaxUnguarded_const LineRow.temperature df u1 h
  · intro h
    unfold LineScorer.stopsScores
    exact map_minmaxUnguarded_const LineRow.stop_id df u2 h
  · intro h
    unfold LineScorer.validationsScores
    exact map_minmaxUnguarded_const LineRow.nb_validations df u3 h

/-- Claim C2 (witness): on a single stop row the guarded temperature
normalization returns the neutral 0.5. -/
theorem claim_C2_witness :
    PriorityScorer.temp_scores [⟨20, 5, true, false⟩] = [1/2] :=
  (claim_C2_zero_variance [⟨20, 5, true, false⟩] 20 0 [] 0 0 [] 0 0 0).1
    (fun r hr => by
      rw [List.mem_singleton.mp hr])

/-- Claim C2 (counterexample): on a single line row (temperature range
zero) the unguarded LineScorer temperature normalization produces NaN
(modelled none), not the neutral 0.5 the claim demands of every scorer
variant. -/
theorem claim_C2_counterexample :
    LineScorer.tempScores [⟨30, 5, 100, some "true"⟩] = [none] ∧
    (none : Option ℚ) ≠ some (1/2) := by
  exact ⟨by decide, by decide⟩

/-- Claim C8 (amended): every normalized factor score produced by the
PriorityScorer normalizations (stop level and line level) lies in [0, 1];
the LineScorer normalizations lie in [0, 1] whenever they are defined,
i.e. whenever the factor has max > min — on a zero-range factor they
produce NaN (none) instead of a number (see the counterexample); the
categorical AC score always lies in [0, 1]. -/
theorem claim_C8_score_range (stops : List StopRow)
    (lines : List LineStatsRow) (df : List LineRow) :
    (∀ q ∈ PriorityScorer.temp_scores stops, 0 ≤ q ∧ q ≤ 1) ∧
    (∀ q ∈ PriorityScorer.passenger_scores stops, 0 ≤ q ∧ q ≤ 1) ∧
    (∀ q ∈ PriorityScorer.shelter_scores stops, 0 ≤ q ∧ q ≤ 1) ∧
    (∀ q ∈ PriorityScorer.bench_scores stops, 0 ≤ q ∧ q ≤ 1) ∧
    (∀ q ∈ PriorityScorer.line_temp_scores lines, 0 ≤ q ∧ q ≤ 1) ∧
    (∀ q ∈ PriorityScorer.line_passenger_scores lines, 0 ≤ q ∧ q ≤ 1) ∧
    (∀ q ∈ PriorityScorer.line_shelter_scores lines, 0 ≤ q ∧ q ≤ 1) ∧
    (∀ q ∈ PriorityScorer.line_bench_scores lines, 0 ≤ q ∧ q ≤ 1) ∧
    (∀ x ∈ LineScorer.tempScores df, ∀ q, x = some q → 0 ≤ q ∧ q ≤ 1) ∧
    (∀ x ∈ LineScorer.stopsScores df, ∀ q, x = some q → 0 ≤ q ∧ q ≤ 1) ∧
    (∀ x ∈ LineScorer.validationsScores df, ∀ q, x = some q → 0 ≤ q ∧ q ≤ 1) ∧
    (∀ r ∈ df, 0 ≤ LineScorer.get_ac_score r.air_conditioning ∧
      LineScorer.get_ac_score r.air_conditioning ≤ 1) := by
  refine ⟨?_, ?_, ?_, ?_, ?_, ?_, ?_, ?_, ?_, ?_, ?_, ?_⟩
  · intro q hq
    obtain ⟨r, hr, hrq⟩ := List.mem_map.mp hq
    rw [← hrq]
    exact minmaxGuarded_range (List.mem_map.mpr ⟨r, hr, rfl⟩)
  · intro q hq
    obtain ⟨r, hr, hrq⟩ := List.mem_map.mp hq
    rw [← hrq]
    exact minmaxGuarded_range (List.mem_map.mpr ⟨r, hr, rfl⟩)
  · intro q hq
    obtain ⟨r, _, hrq⟩ := List.mem_map.mp hq
    rw [← hrq]
    split_ifs <;> norm_num
  · intro q hq
    obtain ⟨r, _, hrq⟩ := List.mem_map.mp hq
    rw [← hrq]
    split_ifs <;> norm_num
  · intro q hq
    obtain ⟨r, hr, hrq⟩ := List.mem_map.mp hq
    rw [← hrq]
    exact minmaxGuarded_range (List.mem_map.mpr ⟨r, hr, rfl⟩)
  · intro q hq
    obtain ⟨r, hr, hrq⟩ := List.mem_map.mp hq
    rw [← hrq]
    exact minmaxGuarded_range (List.mem_map.mpr ⟨r, hr, rfl⟩)
  · intro q hq
    obtain ⟨r, hr, hrq⟩ := List.mem_map.mp hq
    rw [← hrq]
    exact divByMax_range (List.mem_map.mpr ⟨r, hr, rfl⟩)
      (by positivity)
  · intro q hq
    obtain ⟨r, hr, hrq⟩ := List.mem_map.mp hq
    rw [← hrq]
    exact divByMax_range (List.mem_map.mpr ⟨r, hr, rfl⟩)
      (by positivity)
  · intro x hx q hxq
    obtain ⟨r, hr, hrx⟩ := List.mem_map.mp hx
    rw [← hrx] at hxq
    exact minmaxUnguarded_range (List.mem_map.mpr ⟨r, hr, rfl⟩) hxq
  · intro x hx q hxq
    obtain ⟨r, hr, hrx⟩ := List.mem_map.mp hx
    rw [← hrx] at hxq
    exact minmaxUnguarded_range (List.mem_map.mpr ⟨r, hr, rfl⟩) hxq
  · intro x hx q hxq
    obtain ⟨r, hr, hrx⟩ := List.mem_map.mp hx
    rw [← hrx] at hxq
    exact minmaxUnguarded_range (List.mem_map.mpr ⟨r, hr, rfl⟩) hxq
  · intro r _
    exact get_ac_score_range r.air_conditioning

/-- Claim C8 (witness): on a one-row stop table the temperature score is
the neutral 0.5; the theorem instantiated there confirms it lies within
[0, 1]. -/
theorem claim_C8_witness :
    (0 : ℚ) ≤ 1/2 ∧ (1/2 : ℚ) ≤ 1 :=
  (claim_C8_score_range [⟨20, 5, true, false⟩] [] []).1 (1/2)
    (by
      rw [show PriorityScorer.temp_scores [⟨20, 5, true, false⟩] = [1/2]
        from by norm_num [PriorityScorer.temp_scores,
          PriorityScorer.minmaxGuarded, seriesMin, seriesMax]]
      exact List.mem_singleton.mpr rfl)

/-- Claim C8 (counterexample): on a single line row the LineScorer
temperature normalization yields NaN (none), which is not a number in
[0, 1]: there is no rational q with tempScores = [some q]. -/
theorem claim_C8_counterexample :
    LineScorer.tempScores [⟨25, 3, 50, some "false"⟩] = [none] ∧
    (∀ q : ℚ, LineScorer.tempScores [⟨25, 3, 50, some "false"⟩] ≠ [some q]) := by
  constructor
  · decide
  · intro q hq
    rw [show LineScorer.tempScores [⟨25, 3, 50, some "false"⟩] = [none]
      from by decide] at hq
    simp at hq

/-- Claim C3 (amended): the line aggregation of main.py counts stops with
nunique, a distinct-asset count: adding a duplicate of a row already
present leaves the count of every route unchanged, and the count never
exceeds the number of rows of the route.  (The modules variant
aggregate_by_line instead counts raw exploded rows — see the
counterexample.) -/
theorem claim_C3_distinct_count (rows : List RouteStopRow)
    (r : RouteStopRow) (route : String) (h : r ∈ rows) :
    mainLineStopCount (r :: rows) route = mainLineStopCount rows route ∧
    mainLineStopCount rows route ≤
      (rows.filter (fun x => x.route_id == route)).length := by
  constructor
  · unfold mainLineStopCount
    by_cases hr : r.route_id == route
    · have hstep : List.filter (fun x => x.route_id == route) (r :: rows) =
          r :: List.filter (fun x => x.route_id == route) rows := by
        simp [List.filter_cons, hr]
      rw [hstep, List.map_cons]
      have hmem : r.stop_id ∈
          (rows.filter (fun x => x.route_id == route)).map (·.stop_id) :=
        List.mem_map.mpr ⟨r, List.mem_filter.mpr ⟨h, hr⟩, rfl⟩
      rw [List.dedup_cons_of_mem hmem]
    · have hstep : List.filter (fun x => x.route_id == route) (r :: rows) =
          List.filter (fun x => x.route_id == route) rows := by
        rw [List.filter_cons, if_neg hr]
      rw [hstep]
  · unfold mainLineStopCount
    calc ((rows.filter (fun x => x.route_id == route)).map (·.stop_id)).dedup.length
        ≤ ((rows.filter (fun x => x.route_id == route)).map (·.stop_id)).length :=
          (List.dedup_sublist _).length_le
      _ = (rows.filter (fun x => x.route_id == route)).length :=
          List.length_map _ _

/-- Claim C3 (witness): duplicating the single source row of route A does
not change the nunique stop count of main.py. -/
theorem claim_C3_witness :
    mainLineStopCount [⟨"A", 7, 30⟩, ⟨"A", 7, 30⟩] "A" =
      mainLineStopCount [⟨"A", 7, 30⟩] "A" :=
  (claim_C3_distinct_count [⟨"A", 7, 30⟩] ⟨"A", 7, 30⟩ "A"
    (List.mem_singleton.mpr rfl)).1

/-- Claim C3 (counterexample): aggregate_by_line aggregates stop_id with
count, a raw row count: two duplicate source rows of the same stop on line
A yield num_stops = 2 while only 1 distinct stop serves the line, so the
reported asset count exceeds the number of distinct assets. -/
theorem claim_C3_counterexample :
    Modules.SpatialAnalyzer.num_stops [⟨7, 30, ["A"]⟩, ⟨7, 30, ["A"]⟩] "A" = 2 ∧
    Modules.SpatialAnalyzer.distinct_stops
      [⟨7, 30, ["A"]⟩, ⟨7, 30, ["A"]⟩] "A" = 1 ∧
    ¬ (Modules.SpatialAnalyzer.num_stops [⟨7, 30, ["A"]⟩, ⟨7, 30, ["A"]⟩] "A" ≤
        Modules.SpatialAnalyzer.distinct_stops
          [⟨7, 30, ["A"]⟩, ⟨7, 30, ["A"]⟩] "A") := by
  refine ⟨by decide, by decide, by decide⟩

/-- Claim C7 (amended): neither tile builder validates tile size or
coordinate finiteness (the tile size is the fixed positive constant
0.0225 and construction never fails).  The plain loader
convert_to_geodataframe produces exactly one axis-aligned square tile of
side TILE_SIZE centered on each sample; the modules variant
anchors the lower-left corner of the square at the sample instead, so its
center sits at the sample offset by TILE_SIZE / 2 in both axes. -/
theorem claim_C7_tile_geometry (df : List SampleRow) :
    ((ClimateDataLoader.convert_to_geodataframe df).length = df.length) ∧
    (∀ p ∈ ClimateDataLoader.convert_to_geodataframe df,
      tileWidth p.2 = TILE_SIZE ∧ tileHeight p.2 = TILE_SIZE ∧
      tileCenterX p.2 = p.1.lon ∧ tileCenterY p.2 = p.1.lat) ∧
    ((Modules.ClimateDataLoader.convertToGeodataframe df).length = df.length) ∧
    (∀ p ∈ Modules.ClimateDataLoader.convertToGeodataframe df,
      tileWidth p.2 = TILE_SIZE ∧ tileHeight p.2 = TILE_SIZE ∧
      tileCenterX p.2 = p.1.lon + TILE_SIZE / 2 ∧
      tileCenterY p.2 = p.1.lat + TILE_SIZE / 2) := by
  refine ⟨List.length_map _ _, ?_, List.length_map _ _, ?_⟩
  · intro p hp
    obtain ⟨r, _, hrp⟩ := List.mem_map.mp hp
    rw [← hrp]
    unfold tileWidth tileHeight tileCenterX tileCenterY
    refine ⟨by ring, by ring, by ring, by ring⟩
  · intro p hp
    obtain ⟨r, _, hrp⟩ := List.mem_map.mp hp
    rw [← hrp]
    unfold tileWidth tileHeight tileCenterX tileCenterY
    refine ⟨by ring, by ring, by ring, by ring⟩

/-- Claim C7 (witness): on the single sample (2, 48) the plain loader
produces one tile of side TILE_SIZE centered exactly on the sample. -/
theorem claim_C7_witness :
    tileWidth ((⟨2, 48, 30⟩ : SampleRow),
      (⟨2 - TILE_SIZE / 2, 48 - TILE_SIZE / 2,
        2 + TILE_SIZE / 2, 48 + TILE_SIZE / 2⟩ : Tile)).2 = TILE_SIZE ∧
    tileCenterX ((⟨2, 48, 30⟩ : SampleRow),
      (⟨2 - TILE_SIZE / 2, 48 - TILE_SIZE / 2,
        2 + TILE_SIZE / 2, 48 + TILE_SIZE / 2⟩ : Tile)).2 = 2 := by
  have h := (claim_C7_tile_geometry [⟨2, 48, 30⟩]).2.1
    ((⟨2, 48, 30⟩ : SampleRow),
      (⟨2 - TILE_SIZE / 2, 48 - TILE_SIZE / 2,
        2 + TILE_SIZE / 2, 48 + TILE_SIZE / 2⟩ : Tile))
    (by
      unfold ClimateDataLoader.convert_to_geodataframe
      exact List.mem_singleton.mpr rfl)
  exact ⟨h.1, h.2.2.1⟩

/-- Claim C7 (counterexample): the modules tile builder applied to the
sample at the origin yields the tile box(0, 0, TILE_SIZE, TILE_SIZE),
whose center (TILE_SIZE / 2, TILE_SIZE / 2) is not the sample point, so
that variant does not center cells on (x, y). -/
theorem claim_C7_counterexample :
    Modules.ClimateDataLoader.convertToGeodataframe [⟨0, 0, 25⟩] =
      [(⟨0, 0, 25⟩, ⟨0, 0, TILE_SIZE, TILE_SIZE⟩)] ∧
    tileCenterX (⟨0, 0, TILE_SIZE, TILE_SIZE⟩ : Tile) ≠ 0 := by
  constructor
  · unfold Modules.ClimateDataLoader.convertToGeodataframe
    simp
  · unfold tileCenterX TILE_SIZE
    norm_num

/- Helper lemmas about the spatial join. -/

theorem mem_join_iff (stops : List StopRec) (climate : List (SampleRow × Tile))
    (s : StopRec) (c : SampleRow × Tile) :
    (s, c) ∈ SpatialAnalyzer.join_stops_with_climate stops climate ↔
      s ∈ stops ∧ c ∈ climate ∧ pointWithinTile s c.2 = true := by
  unfold SpatialAnalyzer.join_stops_with_climate
  simp only [List.mem_flatMap, List.mem_map, List.mem_filter,
    Prod.mk.injEq]
  constructor
  · rintro ⟨a, ha, c', ⟨hc, hw⟩, rfl, rfl⟩
    exact ⟨ha, hc, hw⟩
  · rintro ⟨hs, hc, hw⟩
    exact ⟨s, hs, c, ⟨hc, hw⟩, rfl, rfl⟩

theorem join_fst_mem {stops : List StopRec} {climate : List (SampleRow × Tile)}
    {p : StopRec × SampleRow × Tile}
    (hp : p ∈ SpatialAnalyzer.join_stops_with_climate stops climate) :
    p.1 ∈ stops ∧ p.2 ∈ climate ∧ pointWithinTile p.1 p.2.2 = true :=
  (mem_join_iff stops climate p.1 p.2).mp hp

theorem join_filter_not_mem {stops : List StopRec}
    {climate : List (SampleRow × Tile)} {s : StopRec} (hs : s ∉ stops) :
    (SpatialAnalyzer.join_stops_with_climate stops climate).filter
      (fun p => p.1 == s) = [] := by
  rw [List.filter_eq_nil_iff]
  intro p hp
  have h1 := (join_fst_mem hp).1
  simp only [beq_iff_eq]
  intro he
  rw [he] at h1
  exact hs h1

theorem join_filter_eq (stops : List StopRec)
    (climate : List (SampleRow × Tile)) (s : StopRec)
    (hs : stops.count s = 1) :
    (SpatialAnalyzer.join_stops_with_climate stops climate).filter
        (fun p => p.1 == s) =
      (climate.filter (fun c => pointWithinTile s c.2)).map (fun c => (s, c)) := by
  induction stops with
  | nil => simp at hs
  | cons a rest ih =>
    have hstep : SpatialAnalyzer.join_stops_with_climate (a :: rest) climate =
        ((climate.filter (fun c => pointWithinTile a c.2)).map (fun c => (a, c)))
          ++ SpatialAnalyzer.join_stops_with_climate rest climate := by
      unfold SpatialAnalyzer.join_stops_with_climate
      rw [List.flatMap_cons]
    rw [hstep, List.filter_append]
    by_cases ha : a = s
    · subst ha
      have hnot : a ∉ rest := by
        rw [List.count_cons_self] at hs
        have : rest.count a = 0 := by omega
        exact List.count_eq_zero.mp this
      rw [join_filter_not_mem hnot, List.append_nil]
      rw [List.filter_map]
      have hconst : ((fun p : StopRec × SampleRow × Tile => p.1 == a) ∘
          (fun c => (a, c))) = fun _ => true := by
        funext c
        simp [Function.comp]
      rw [hconst, List.filter_true]
    · have hcount : rest.count s = 1 := by
        rw [List.count_cons_of_ne (by exact fun he => ha he.symm)] at hs
        exact hs
      rw [ih hcount]
      have hnil : ((climate.filter (fun c => pointWithinTile a c.2)).map
          (fun c => (a, c))).filter (fun p => p.1 == s) = [] := by
        rw [List.filter_map]
        have hconst : ((fun p : StopRec × SampleRow × Tile => p.1 == s) ∘
            (fun c => (a, c))) = fun _ => false := by
          funext c
          simp [Function.comp, ha]
        rw [hconst, List.filter_false, List.map_nil]
      rw [hnil, List.nil_append]

/-- Claim C9 (confirmed): the spatial join has inner-join semantics: a
stop appearing once in the stop table whose point lies strictly inside
exactly one tile appears exactly once in the joined output, paired with
that tile (and hence carrying its value); a stop strictly inside no tile
contributes no joined row at all. -/
theorem claim_C9_join_semantics (stops : List StopRec)
    (climate : List (SampleRow × Tile)) (s : StopRec) (c : SampleRow × Tile) :
    (stops.count s = 1 →
      climate.filter (fun c' => pointWithinTile s c'.2) = [c] →
      (SpatialAnalyzer.join_stops_with_climate stops climate).filter
        (fun p => p.1 == s) = [(s, c)]) ∧
    ((∀ c' ∈ climate, pointWithinTile s c'.2 = false) →
      ∀ p ∈ SpatialAnalyzer.join_stops_with_climate stops climate,
        p.1 ≠ s) := by
  constructor
  · intro h1 h2
    rw [join_filter_eq stops climate s h1, h2]
    rfl
  · intro hout p hp heq
    obtain ⟨-, hc, hw⟩ := join_fst_mem hp
    rw [heq] at hw
    rw [hout p.2 hc] at hw
    exact Bool.false_ne_true hw

/-- Claim C9 (witness): one stop strictly inside the first of two tiles
built by the plain loader appears exactly once in the joined output,
paired with that tile and its sample value 30. -/
theorem claim_C9_witness :
    (SpatialAnalyzer.join_stops_with_climate [⟨1, 2.35, 48.85⟩]
        (ClimateDataLoader.convert_to_geodataframe
          [⟨2.35, 48.85, 30⟩, ⟨3, 49, 28⟩])).filter
      (fun p => p.1 == (⟨1, 2.35, 48.85⟩ : StopRec)) =
      [(⟨1, 2.35, 48.85⟩, ⟨2.35, 48.85, 30⟩,
        ⟨2.35 - TILE_SIZE / 2, 48.85 - TILE_SIZE / 2,
         2.35 + TILE_SIZE / 2, 48.85 + TILE_SIZE / 2⟩)] := by
  apply (claim_C9_join_semantics [⟨1, 2.35, 48.85⟩]
    (ClimateDataLoader.convert_to_geodataframe
      [⟨2.35, 48.85, 30⟩, ⟨3, 49, 28⟩]) ⟨1, 2.35, 48.85⟩
    (⟨2.35, 48.85, 30⟩,
      ⟨2.35 - TILE_SIZE / 2, 48.85 - TILE_SIZE / 2,
       2.35 + TILE_SIZE / 2, 48.85 + TILE_SIZE / 2⟩)).1
  · rw [List.count_cons_self, List.count_nil]
  · unfold ClimateDataLoader.convert_to_geodataframe
    norm_num [pointWithinTile, TILE_SIZE, List.filter]

/- Helper lemmas about drop_duplicates keeping first occurrences. -/

theorem dedupFirst_subset :
    ∀ (l : List JoinedRow) (seen : List ℕ) (r : JoinedRow),
      r ∈ dedupFirst seen l → r ∈ l := by
  intro l
  induction l with
  | nil =>
    intro seen r h
    cases h
  | cons a rest ih =>
    intro seen r h
    unfold dedupFirst at h
    split_ifs at h with hm
    · exact List.mem_cons_of_mem a (ih seen r h)
    · rcases List.mem_cons.mp h with h1 | h1
      · exact h1 ▸ List.mem_cons_self a rest
      · exact List.mem_cons_of_mem a (ih (a.stop_id :: seen) r h1)

theorem dedupFirst_filter :
    ∀ (l : List JoinedRow) (seen : List ℕ) (s : ℕ),
      (dedupFirst seen l).filter (fun r => r.stop_id == s) =
        if s ∈ seen then []
        else (l.filter (fun r => r.stop_id == s)).take 1 := by
  intro l
  induction l with
  | nil =>
    intro seen s
    by_cases hs : s ∈ seen <;> simp [dedupFirst, hs]
  | cons a rest ih =>
    intro seen s
    by_cases hm : a.stop_id ∈ seen
    · rw [show dedupFirst seen (a :: rest) = dedupFirst seen rest from by
        simp only [dedupFirst]
        rw [if_pos hm]]
      rw [ih seen s]
      by_cases hs : s ∈ seen
      · rw [if_pos hs, if_pos hs]
      · have hne : ¬ (a.stop_id == s) = true := by
          simp only [beq_iff_eq]
          intro he
          exact hs (he ▸ hm)
        rw [if_neg hs, if_neg hs, List.filter_cons, if_neg hne]
    · rw [show dedupFirst seen (a :: rest) =
          a :: dedupFirst (a.stop_id :: seen) rest from by
        simp only [dedupFirst]
        rw [if_neg hm]]
      rw [List.filter_cons]
      by_cases has : (a.stop_id == s) = true
      · have heq : a.stop_id = s := by rwa [beq_iff_eq] at has
        have hs : s ∉ seen := heq ▸ hm
        rw [if_pos has, ih (a.stop_id :: seen) s,
          if_pos (heq ▸ List.mem_cons_self a.stop_id seen),
          if_neg hs, List.filter_cons, if_pos has, List.take_succ_cons,
          List.take_zero]
      · rw [if_neg has, ih (a.stop_id :: seen) s]
        have hmem : (s ∈ a.stop_id :: seen) ↔ s ∈ seen := by
          constructor
          · intro h
            rcases List.mem_cons.mp h with h1 | h1
            · exact absurd (by rw [beq_iff_eq]; exact h1.symm) has
            · exact h1
          · exact List.mem_cons_of_mem a.stop_id
        by_cases hss : s ∈ seen
        · rw [if_pos (hmem.mpr hss), if_pos hss]
        · rw [if_neg (fun h => hss (hmem.mp h)), if_neg hss,
            List.filter_cons, if_neg has]

theorem dedupFirst_keys_spec :
    ∀ (l : List JoinedRow) (seen : List ℕ),
      ((dedupFirst seen l).map (·.stop_id)).Nodup ∧
      ∀ x ∈ (dedupFirst seen l).map (·.stop_id), x ∉ seen := by
  intro l
  induction l with
  | nil =>
    intro seen
    simp [dedupFirst]
  | cons a rest ih =>
    intro seen
    unfold dedupFirst
    split_ifs with hm
    · exact ih seen
    · obtain ⟨hnd, hns⟩ := ih (a.stop_id :: seen)
      rw [List.map_cons]
      constructor
      · rw [List.nodup_cons]
        refine ⟨?_, hnd⟩
        intro hmem
        exact hns a.stop_id hmem (List.mem_cons_self a.stop_id seen)
      · intro x hx
        rcases List.mem_cons.mp hx with h1 | h1
        · exact h1 ▸ hm
        · intro hxs
          exact hns x h1 (List.mem_cons_of_mem a.stop_id hxs)

theorem dedupFirst_keys_mem :
    ∀ (l : List JoinedRow) (seen : List ℕ) (s : ℕ),
      s ∈ (dedupFirst seen l).map (·.stop_id) ↔
        (s ∈ l.map (·.stop_id) ∧ s ∉ seen) := by
  intro l
  induction l with
  | nil =>
    intro seen s
    simp [dedupFirst]
  | cons a rest ih =>
    intro seen s
    by_cases hm : a.stop_id ∈ seen
    · rw [show dedupFirst seen (a :: rest) = dedupFirst seen rest from by
        simp only [dedupFirst]
        rw [if_pos hm]]
      rw [ih seen s, List.map_cons]
      simp only [List.mem_cons]
      constructor
      · rintro ⟨h1, h2⟩
        exact ⟨Or.inr h1, h2⟩
      · rintro ⟨h1 | h1, h2⟩
        · cases h1
          exact absurd hm h2
        · exact ⟨h1, h2⟩
    · rw [show dedupFirst seen (a :: rest) =
          a :: dedupFirst (a.stop_id :: seen) rest from by
        simp only [dedupFirst]
        rw [if_neg hm]]
      rw [List.map_cons, List.map_cons]
      simp only [List.mem_cons]
      rw [ih (a.stop_id :: seen) s]
      constructor
      · rintro (h1 | ⟨h1, h2⟩)
        · exact ⟨Or.inl h1, fun hs => hm (h1 ▸ hs)⟩
        · exact ⟨Or.inr h1, fun hs => h2 (List.mem_cons_of_mem _ hs)⟩
      · rintro ⟨h1 | h1, h2⟩
        · exact Or.inl h1
        · by_cases hsa : s = a.stop_id
          · exact Or.inl hsa
          · refine Or.inr ⟨h1, ?_⟩
            intro hs
            rcases List.mem_cons.mp hs with h3 | h3
            · exact hsa h3
            · exact h2 h3

theorem foldl_max_of_le {a : ℚ} :
    ∀ (xs : List ℚ), (∀ x ∈ xs, x ≤ a) → xs.foldl max a = a
  | [], _ => rfl
  | y :: ys, h => by
    have hy : y ≤ a := h y (List.mem_cons_self y ys)
    have : max a y = a := max_eq_left hy
    rw [List.foldl_cons, this]
    exact foldl_max_of_le ys (fun x hx => h x (List.mem_cons_of_mem y hx))

theorem seriesMax_cons_of_le {r : ℚ} {xs : List ℚ}
    (h : ∀ x ∈ xs, x ≤ r) : seriesMax (r :: xs) = r :=
  foldl_max_of_le xs h

theorem filter_eq_singleton_of_nodup :
    ∀ (rows : List JoinedRow), ((rows.map (·.stop_id)).Nodup) →
      ∀ r ∈ rows, rows.filter (fun x => x.stop_id == r.stop_id) = [r] := by
  intro rows
  induction rows with
  | nil =>
    intro _ r hr
    cases hr
  | cons a rest ih =>
    intro hnd r hr
    rw [List.map_cons, List.nodup_cons] at hnd
    obtain ⟨hna, hnd'⟩ := hnd
    rcases List.mem_cons.mp hr with h1 | h1
    · subst h1
      rw [List.filter_cons, if_pos (by rw [beq_iff_eq])]
      have : rest.filter (fun x => x.stop_id == r.stop_id) = [] := by
        rw [List.filter_eq_nil_iff]
        intro x hx
        simp only [beq_iff_eq]
        intro he
        exact hna (he ▸ List.mem_map.mpr ⟨x, hx, rfl⟩)
      rw [this]
    · have hne : ¬ (a.stop_id == r.stop_id) = true := by
        simp only [beq_iff_eq]
        intro he
        exact hna (he ▸ List.mem_map.mpr ⟨r, h1, rfl⟩)
      rw [List.filter_cons, if_neg hne]
      exact ih hnd' r h1

/-- Claim C6 (amended): calculate_stop_heat_exposure deterministically
resolves every stop id to exactly one joined row: the output stop ids have
no duplicates and cover exactly the input stop ids, every output row is one
of the input rows, and each kept row carries the maximum temperature among
the rows of its stop id.  When several rows of one stop tie at that
maximum, the row kept is the one appearing first after the pandas
descending sort, which is the LAST-seen join row, not the first-seen one
(see the counterexample); the plain src/src/spatial_analysis.py variant
performs no deduplication at all. -/
theorem claim_C6_dedup_resolution (rows : List JoinedRow) :
    (((Modules.SpatialAnalyzer.calculate_stop_heat_exposure rows).map
        (·.stop_id)).Nodup) ∧
    (∀ r ∈ Modules.SpatialAnalyzer.calculate_stop_heat_exposure rows,
      r ∈ rows) ∧
    (∀ r ∈ Modules.SpatialAnalyzer.calculate_stop_heat_exposure rows,
      r.temperature = maxTempFor rows r.stop_id) ∧
    (∀ s : ℕ, s ∈ rows.map (·.stop_id) ↔
      s ∈ (Modules.SpatialAnalyzer.calculate_stop_heat_exposure rows).map
        (·.stop_id)) := by
  unfold Modules.SpatialAnalyzer.calculate_stop_heat_exposure
  split_ifs with hnd
  · refine ⟨hnd, fun r hr => hr, ?_, fun s => Iff.rfl⟩
    intro r hr
    unfold maxTempFor
    rw [filter_eq_singleton_of_nodup rows hnd r hr, List.map_cons,
      List.map_nil]
    rfl
  · have hperm : List.Perm (sort_values_desc (·.temperature) rows) rows :=
      sort_values_desc_perm _ rows
    refine ⟨(dedupFirst_keys_spec _ []).1, ?_, ?_, ?_⟩
    · intro r hr
      exact hperm.mem_iff.mp (dedupFirst_subset _ [] r hr)
    · intro r hr
      have hfil := dedupFirst_filter (sort_values_desc (·.temperature) rows)
        [] r.stop_id
      rw [if_neg (List.not_mem_nil r.stop_id)] at hfil
      have hrfil : r ∈ (dedupFirst []
          (sort_values_desc (·.temperature) rows)).filter
            (fun x => x.stop_id == r.stop_id) :=
        List.mem_filter.mpr ⟨hr, by rw [beq_iff_eq]⟩
      rw [hfil] at hrfil
      set fs := (sort_values_desc (·.temperature) rows).filter
        (fun x => x.stop_id == r.stop_id) with hfs
      cases hcases : fs with
      | nil =>
        rw [hcases] at hrfil
        cases hrfil
      | cons b t =>
        rw [hcases, List.take_succ_cons, List.take_zero] at hrfil
        have hrb : r = b := List.mem_singleton.mp hrfil
        subst hrb
        have hsorted : fs.Pairwise
            (fun a b : JoinedRow => b.temperature ≤ a.temperature) :=
          List.Pairwise.sublist (List.filter_sublist _)
            (sort_values_desc_sorted (·.temperature) rows)
        rw [hcases] at hsorted
        have hle : ∀ x ∈ t, x.temperature ≤ r.temperature :=
          fun x hx => (List.pairwise_cons.mp hsorted).1 x hx
        unfold maxTempFor
        have hpermf : List.Perm
            (rows.filter (fun x => x.stop_id == r.stop_id)) fs :=
          (hperm.filter _).symm
        rw [seriesMax_eq_of_perm (hpermf.map (·.temperature)), hcases,
          List.map_cons]
        exact (seriesMax_cons_of_le (fun x hx => by
          obtain ⟨y, hy, hxy⟩ := List.mem_map.mp hx
          rw [← hxy]
          exact hle y hy)).symm
    · intro s
      rw [dedupFirst_keys_mem _ [] s]
      constructor
      · intro h
        exact ⟨(hperm.map (·.stop_id)).mem_iff.mpr h,
          List.not_mem_nil s⟩
      · rintro ⟨h, -⟩
        exact (hperm.map (·.stop_id)).mem_iff.mp h

/-- Claim C6 (witness): on a stop joined against tiles at 30 and 28
degrees the dedup keeps the 30-degree row, and the theorem confirms the
kept temperature equals the maximum for that stop. -/
theorem claim_C6_witness :
    (⟨7, 30, 1⟩ : JoinedRow).temperature =
      maxTempFor [⟨7, 30, 1⟩, ⟨7, 28, 2⟩] 7 :=
  (claim_C6_dedup_resolution [⟨7, 30, 1⟩, ⟨7, 28, 2⟩]).2.2.1
    ⟨7, 30, 1⟩ (by decide)

/-- Claim C6 (counterexample): a stop lying in two tiles of equal value 30
is resolved to the SECOND join row (cell tag 2), because the pandas
descending sort reverses the order of tied rows before drop_duplicates
keeps the first; the claim predicted the first-seen cell (tag 1). -/
theorem claim_C6_counterexample :
    Modules.SpatialAnalyzer.calculate_stop_heat_exposure
      [⟨7, 30, 1⟩, ⟨7, 30, 2⟩] = [⟨7, 30, 2⟩] ∧
    (⟨7, 30, 2⟩ : JoinedRow).cell ≠ 1 := by
  exact ⟨by decide, by decide⟩

end IDFM
